import Mathlib

/-!
Verification development for the doctown batching-and-orchestration core.

Part 1 embeds the adaptive batch controller of
`src/workers/embedding/app/model.py` (`EmbeddingModel._adjust_batch_size`
and `EmbeddingModel.embed`).  Part 2 embeds the distributed job
orchestrator of `src/builder/handler_serverless.py`
(`embed_chunks_serverless`).

The vectorization primitive (`EmbeddingModel._embed_batch`), the memory
probe (`EmbeddingModel._check_memory`) and the remote job endpoint
(`EmbedderClient`) are external collaborators; they are modelled as
oracle functions supplied as parameters.  Recursion in the Python source
is modelled with an explicit fuel argument (the source recursion can
genuinely diverge, e.g. with `adaptive_batching = False` and a always
failing primitive, and Python itself bounds recursion depth); all fuel
recursion is structural so that concrete runs evaluate by `rfl`.
-/

namespace EmbeddingModel

/-- The batching-related fields of `Settings` (`app/config.py`).
Defaults in the source: `min_batch_size = 1`, `max_batch_size = 8`,
`adaptive_batching = true`. -/
structure Settings where
  min_batch_size : Nat
  max_batch_size : Nat
  adaptive_batching : Bool

/-- `EmbeddingModel._adjust_batch_size` (model.py lines 125-147).
`success = true` grows `current` by the hard-coded step 4, clamped to
`max_batch_size`; `success = false` halves it, clamped to
`min_batch_size`; no change when `adaptive_batching` is off or the
corresponding guard fails. -/
def adjust_batch_size (S : Settings) (success : Bool) (cur : Nat) : Nat :=
  if S.adaptive_batching = false then cur
  else if success = true ∧ cur < S.max_batch_size then
    min (cur + 4) S.max_batch_size
  else if success = false ∧ S.min_batch_size < cur then
    max (cur / 2) S.min_batch_size
  else cur

/-- Mutable state of one `EmbeddingModel` instance, plus bookkeeping of
how many `_check_memory` readings have been consumed (the memory probe
is an oracle `Nat → Bool` indexed by reading number; `true` = safe). -/
structure MState where
  current_batch_size : Nat
  mem_reads : Nat
  deriving DecidableEq, Repr

/-- Result of a call to `embed`: the outcome (`Except.error ()` models a
raised exception), the final controller state, and the list of calls
made to the vectorization primitive `_embed_batch` (each entry is the
argument list of one call, in call order). -/
structure EmbedOut (T V : Type) where
  res : Except Unit (List V)
  st : MState
  calls : List (List T)

/-- The chunked-processing loop of `EmbeddingModel.embed`
(model.py lines 249-290).

Faithful to the source:
* `stride` is the value of `range(0, total_texts, current_batch_size)`'s
  step, computed once at loop entry, while each slice
  `texts[i : i + self.current_batch_size]` reads the live batch size;
* one memory reading before each sub-batch; if unsafe, a gc pass and a
  second reading; if still unsafe, shrink and recursively re-embed the
  sub-batch via `embedRec` (the mid-run safety valve), then `continue`;
* on primitive failure the except-branch shrinks once and re-raises
  (no per-sub-batch retry);
* every 10th sub-batch (`chunk_num % 10 == 0`, with `chunk_num`
  computed from the live batch size) one extra memory reading after gc;
* a successful sub-batch applies the grow transition.

The first `Nat` argument is loop fuel; callers pass `texts.length + 1`
which is an upper bound on the number of iterations (stride ≥ 1), so
the fuel-exhausted branch is unreachable in actual use. -/
def embedLoop {T V : Type} (S : Settings) (vec : List T → Option (List V))
    (mem : Nat → Bool) (embedRec : MState → List T → EmbedOut T V)
    (texts : List T) (stride : Nat) :
    Nat → Nat → MState → EmbedOut T V
  | 0, _, st => ⟨Except.error (), st, []⟩
  | f+1, i, st =>
    if texts.length ≤ i then ⟨Except.ok [], st, []⟩
    else
      let chunk := (texts.drop i).take st.current_batch_size
      if mem st.mem_reads = false ∧ mem (st.mem_reads + 1) = false then
        -- memory pressure persists after gc: shrink, recursively
        -- re-embed this one sub-batch, then continue the loop
        let c2 := adjust_batch_size S false st.current_batch_size
        let sub := embedRec ⟨c2, st.mem_reads + 2⟩ chunk
        match sub.res with
        | Except.ok ce =>
          let rest := embedLoop S vec mem embedRec texts stride f (i + stride) sub.st
          ⟨(match rest.res with
            | Except.ok vs => Except.ok (ce ++ vs)
            | Except.error e => Except.error e), rest.st, sub.calls ++ rest.calls⟩
        | Except.error _ =>
          -- the except-branch shrinks once more and re-raises
          ⟨Except.error (),
            ⟨adjust_batch_size S false sub.st.current_batch_size, sub.st.mem_reads⟩,
            sub.calls⟩
      else
        -- memory safe (one reading consumed, or two when the first was
        -- unsafe and the reading after gc was safe)
        let mi1 := if mem st.mem_reads = true then st.mem_reads + 1 else st.mem_reads + 2
        match vec chunk with
        | none =>
          ⟨Except.error (),
            ⟨adjust_batch_size S false st.current_batch_size, mi1⟩, [chunk]⟩
        | some ce =>
          let mi2 := if (i / st.current_batch_size + 1) % 10 = 0 then mi1 + 1 else mi1
          let c2 := adjust_batch_size S true st.current_batch_size
          let rest := embedLoop S vec mem embedRec texts stride f (i + stride) ⟨c2, mi2⟩
          ⟨(match rest.res with
            | Except.ok vs => Except.ok (ce ++ vs)
            | Except.error e => Except.error e), rest.st, chunk :: rest.calls⟩

/-- `EmbeddingModel.embed` (model.py lines 210-299), fuel-indexed.

Direct path (`len(texts) ≤ current_batch_size`, lines 228-245): one
advisory memory reading, then one call to the primitive on the whole
input; grow on success; on failure shrink and retry the same input
recursively iff the updated `current_batch_size` and `len(texts)` both
exceed `min_batch_size`, else re-raise.

Chunked path (lines 247-299): the `embedLoop` above, with the range
stride frozen at entry.  `current_batch_size = 0` models the
`ValueError` that `range(0, n, 0)` raises in Python. -/
def embed {T V : Type} (S : Settings) (vec : List T → Option (List V))
    (mem : Nat → Bool) : Nat → MState → List T → EmbedOut T V
  | 0, st, _ => ⟨Except.error (), st, []⟩
  | f+1, st, texts =>
    if texts.length ≤ st.current_batch_size then
      match vec texts with
      | some r =>
        ⟨Except.ok r,
          ⟨adjust_batch_size S true st.current_batch_size, st.mem_reads + 1⟩, [texts]⟩
      | none =>
        let c2 := adjust_batch_size S false st.current_batch_size
        if S.min_batch_size < c2 ∧ S.min_batch_size < texts.length then
          let r := embed S vec mem f ⟨c2, st.mem_reads + 1⟩ texts
          ⟨r.res, r.st, texts :: r.calls⟩
        else ⟨Except.error (), ⟨c2, st.mem_reads + 1⟩, [texts]⟩
    else
      if st.current_batch_size = 0 then ⟨Except.error (), st, []⟩
      else
        embedLoop S vec mem (embed S vec mem f) texts st.current_batch_size
          (texts.length + 1) 0 st

/-- The source defaults: `min_batch_size = 1`, `max_batch_size = 8`,
`adaptive_batching = true`; a fresh model starts with
`current_batch_size = settings.min_batch_size` (model.py line 44). -/
def defaultSettings : Settings := ⟨1, 8, true⟩

/-- A memory probe that always reports safe. -/
def memAlwaysSafe : Nat → Bool := fun _ => true

end EmbeddingModel

namespace HandlerServerless

/-- One `{"chunk_id": ..., "content": ...}` dict (handler_serverless.py). -/
structure Chunk where
  chunk_id : String
  content : String
  deriving DecidableEq, Repr

/-- A job result payload is a JSON dict; `embed_chunks_serverless` only
reads its `"vectors"` key, whose value is a list of vector entries of an
opaque type `V`.  Modelled as an association list with string keys.
Python dict truthiness (`{}` is falsy) corresponds to list emptiness. -/
def Payload (V : Type) := List (String × List V)

/-- The `EmbeddingJob` dataclass (handler_serverless.py lines 47-55).
`status` keeps the source's string states `"pending"`, `"completed"`,
`"failed"`; `result` is the optional output dict; `error` the optional
error string. -/
structure EmbeddingJob (V : Type) where
  job_id : String
  batch_id : String
  chunk_ids : List String
  status : String
  result : Option (Payload V)
  error : Option String

/-- A remote `/status/{job_id}` response as read by the poll loop:
`.get("status", "UNKNOWN")`, `.get("output", {})`,
`.get("error", "Unknown error")`.  Each field is optional (absent key). -/
structure StatusResponse (V : Type) where
  status : Option String
  output : Option (Payload V)
  error : Option String

/-- `f"{job_prefix}_batch_{i}"` (handler_serverless.py line 135). -/
def mkBatchId (pref : String) (i : Nat) : String :=
  pref ++ "_batch_" ++ toString i

/-- `chunks[i:i + B] for i in range(0, len(chunks), B)` (lines 127-130),
fuel-indexed on the list length so that the recursion is structural.
For `B ≥ 1` the fuel branch is unreachable when `l.length ≤ fuel`. -/
def chunksOfF (B : Nat) : Nat → List α → List (List α)
  | 0, _ => []
  | _+1, [] => []
  | f+1, x :: xs => ((x :: xs).take B) :: chunksOfF B f (xs.drop (B - 1))

/-- The batch partition of the submit phase (lines 127-130). -/
def chunksOf (B : Nat) (l : List α) : List (List α) :=
  chunksOfF B l.length l

/-- Submission of one batch (lines 134-152): on a successful remote
submit the job starts `"pending"`; if the submit call raises, the job is
recorded immediately as `"failed"` with the captured error message and
an empty job id, and no retry happens. -/
def submitJob {V : Type} (submit : String → List Chunk → Except String String)
    (pref : String) (i : Nat) (batch : List Chunk) : EmbeddingJob V :=
  match submit (mkBatchId pref i) batch with
  | Except.ok jid =>
    ⟨jid, mkBatchId pref i, batch.map Chunk.chunk_id, "pending", none, none⟩
  | Except.error e =>
    ⟨"", mkBatchId pref i, batch.map Chunk.chunk_id, "failed", none, some e⟩

/-- The submit loop over all batches (lines 133-152), carrying the
running batch index. -/
def submitAll {V : Type} (submit : String → List Chunk → Except String String)
    (pref : String) : Nat → List (List Chunk) → List (EmbeddingJob V)
  | _, [] => []
  | i, b :: bs => submitJob submit pref i b :: submitAll submit pref (i + 1) bs

/-- Processing of one status response for one job (lines 162-181).
A raised status request (`Except.error`) is caught and leaves the job
unchanged; `COMPLETED` records the output dict and completes the job;
`FAILED` records the error reason; `CANCELLED`/`TIMED_OUT` fail the job
with reason `"Job {status}"`; any other status leaves it pending. -/
def updateJob {V : Type} (statusOf : String → Except Unit (StatusResponse V))
    (j : EmbeddingJob V) : EmbeddingJob V :=
  match statusOf j.job_id with
  | Except.error _ => j
  | Except.ok resp =>
    let s := resp.status.getD "UNKNOWN"
    if s = "COMPLETED" then
      ⟨j.job_id, j.batch_id, j.chunk_ids, "completed", some (resp.output.getD []), j.error⟩
    else if s = "FAILED" then
      ⟨j.job_id, j.batch_id, j.chunk_ids, "failed", j.result, some (resp.error.getD "Unknown error")⟩
    else if s = "CANCELLED" ∨ s = "TIMED_OUT" then
      ⟨j.job_id, j.batch_id, j.chunk_ids, "failed", j.result, some ("Job " ++ s)⟩
    else j

/-- One polling iteration (lines 159-181): walk the job list in
submission order, querying and updating the first `budget` jobs that are
still `"pending"` (`check_jobs = pending_jobs[:EMBEDDING_MAX_CONCURRENT]`);
all other jobs are untouched.  Also returns the job ids queried, in
query order. -/
def pollIter {V : Type} (statusOf : String → Except Unit (StatusResponse V)) :
    Nat → List (EmbeddingJob V) → List (EmbeddingJob V) × List String
  | _, [] => ([], [])
  | budget, j :: rest =>
    if j.status = "pending" then
      match budget with
      | 0 => (j :: rest, [])
      | b+1 =>
        let r := pollIter statusOf b rest
        (updateJob statusOf j :: r.1, j.job_id :: r.2)
    else
      let r := pollIter statusOf budget rest
      (j :: r.1, r.2)

/-- The polling loop (lines 158-187): while some job is pending and the
deadline has not elapsed, run one `pollIter` and advance the iteration
counter.  `statusOf t` is the remote status oracle during iteration `t`;
`expired t` tells whether `time.time() - start_time < EMBEDDING_TIMEOUT`
has failed by the check preceding iteration `t`.  Fuel-indexed. -/
def pollLoop {V : Type} (statusOf : Nat → String → Except Unit (StatusResponse V))
    (expired : Nat → Bool) (maxc : Nat) :
    Nat → Nat → List (EmbeddingJob V) → List (EmbeddingJob V)
  | 0, _, jobs => jobs
  | f+1, t, jobs =>
    if (jobs.filter (fun j => j.status == "pending")).isEmpty = false ∧ expired t = false
    then pollLoop statusOf expired maxc f (t + 1) (pollIter (statusOf t) maxc jobs).1
    else jobs

/-- The timeout sweep (lines 190-193): every job still pending after the
loop is forcibly failed with reason `"Timeout"`. -/
def timeoutMark {V : Type} (jobs : List (EmbeddingJob V)) : List (EmbeddingJob V) :=
  jobs.map (fun j =>
    if j.status = "pending" then
      ⟨j.job_id, j.batch_id, j.chunk_ids, "failed", j.result, some "Timeout"⟩
    else j)

/-- The cancel requests issued by the timeout sweep (line 193): one
best-effort `cancel_job` per still-pending job, in job order. -/
def cancelCalls {V : Type} (jobs : List (EmbeddingJob V)) : List String :=
  (jobs.filter (fun j => j.status == "pending")).map EmbeddingJob.job_id

/-- Python `dict.get(key, [])` on a payload dict. -/
def dictGet {V : Type} (p : Payload V) (k : String) : List V :=
  match p.find? (fun e => e.1 == k) with
  | some e => e.2
  | none => []

/-- Python truthiness of `job.result`: `None` and `{}` are falsy. -/
def resultTruthy {V : Type} (j : EmbeddingJob V) : Bool :=
  !(j.result.getD []).isEmpty

/-- `job.result.get("vectors", [])` (line 201). -/
def jobVectors {V : Type} (j : EmbeddingJob V) : List V :=
  dictGet (j.result.getD []) "vectors"

/-- The aggregation pass (lines 196-204): vectors of jobs that are
completed with a truthy result dict, concatenated in job order. -/
def collectVectors {V : Type} : List (EmbeddingJob V) → List V
  | [] => []
  | j :: rest =>
    if j.status = "completed" ∧ resultTruthy j = true
    then jobVectors j ++ collectVectors rest
    else collectVectors rest

/-- The `failed_count` computed by the same aggregation pass: the number
of jobs that are not (completed with a truthy result).  In the source
this count is only logged (lines 206-209), never returned. -/
def failedCount {V : Type} : List (EmbeddingJob V) → Nat
  | [] => 0
  | j :: rest =>
    if j.status = "completed" ∧ resultTruthy j = true
    then failedCount rest
    else failedCount rest + 1

/-- The final job set of one `embed_chunks_serverless` run: partition,
submit, poll to completion or deadline, then the timeout sweep. -/
def orchJobs {V : Type} (B maxc : Nat)
    (submit : String → List Chunk → Except String String)
    (statusOf : Nat → String → Except Unit (StatusResponse V))
    (expired : Nat → Bool) (fuel : Nat)
    (chunks : List Chunk) (pref : String) : List (EmbeddingJob V) :=
  timeoutMark (pollLoop statusOf expired maxc fuel 0
    (submitAll submit pref 0 (chunksOf B chunks)))

/-- `embed_chunks_serverless` (handler_serverless.py lines 105-211).
Its return value is the flat list of vectors alone (line 211); the
failed-batch count is computed and logged but not returned. -/
def embed_chunks_serverless {V : Type} (B maxc : Nat)
    (submit : String → List Chunk → Except String String)
    (statusOf : Nat → String → Except Unit (StatusResponse V))
    (expired : Nat → Bool) (fuel : Nat)
    (chunks : List Chunk) (pref : String) : List V :=
  if chunks.isEmpty then []
  else collectVectors (orchJobs B maxc submit statusOf expired fuel chunks pref)

/-- Modelled from the spec: the spec's §3 `OrchestrationResult
{vectors, failed_batch_count}` output type does not exist in the source;
it is introduced here only to compare the spec's claimed output contract
with what the code actually returns. -/
structure OrchestrationResult (V : Type) where
  vectors : List V
  failed_batch_count : Nat

/-- The `OrchestrationResult` the spec claims the orchestrator returns,
assembled from the quantities the code actually computes. -/
def orchestrationResultOf {V : Type} (B maxc : Nat)
    (submit : String → List Chunk → Except String String)
    (statusOf : Nat → String → Except Unit (StatusResponse V))
    (expired : Nat → Bool) (fuel : Nat)
    (chunks : List Chunk) (pref : String) : OrchestrationResult V :=
  if chunks.isEmpty then ⟨[], 0⟩
  else
    ⟨collectVectors (orchJobs B maxc submit statusOf expired fuel chunks pref),
     failedCount (orchJobs B maxc submit statusOf expired fuel chunks pref)⟩

end HandlerServerless

namespace C1Scenario

open HandlerServerless

/-- One chunk (one batch at `B = 1`). -/
def chunksA : List Chunk := [⟨"c1", "x"⟩]

/-- Two chunks (two batches at `B = 1`). -/
def chunksB : List Chunk := [⟨"c1", "x"⟩, ⟨"c2", "x"⟩]

/-- Remote submit that always succeeds, with the batch id as job id. -/
def submitOk : String → List Chunk → Except String String := fun bid _ => Except.ok bid

/-- Every status query reports COMPLETED with one vector `"v1"`. -/
def statusA : Nat → String → Except Unit (StatusResponse String) := fun _ _ =>
  Except.ok ⟨some "COMPLETED", some [("vectors", ["v1"])], none⟩

/-- Batch 0 completes with the single vector `"v1"`; batch 1 fails. -/
def statusB : Nat → String → Except Unit (StatusResponse String) := fun _ jid =>
  if jid = "p_batch_0" then Except.ok ⟨some "COMPLETED", some [("vectors", ["v1"])], none⟩
  else Except.ok ⟨some "FAILED", none, some "boom"⟩

/-- A deadline that never expires within the run. -/
def neverExpired : Nat → Bool := fun _ => false

end C1Scenario

namespace C8Scenario

open HandlerServerless

/-- Ten chunks, to be split with `batch_size = 3`. -/
def items : List Chunk :=
  [⟨"c0", ""⟩, ⟨"c1", ""⟩, ⟨"c2", ""⟩, ⟨"c3", ""⟩, ⟨"c4", ""⟩,
   ⟨"c5", ""⟩, ⟨"c6", ""⟩, ⟨"c7", ""⟩, ⟨"c8", ""⟩, ⟨"c9", ""⟩]

/-- Remote submit always succeeds, with the batch id as job id. -/
def submitOk : String → List Chunk → Except String String := fun bid _ => Except.ok bid

/-- Batches 0-2 report COMPLETED, each with the chunk ids of its batch
as its vectors; batch 3 reports FAILED. -/
def statusOf : Nat → String → Except Unit (StatusResponse String) := fun _ jid =>
  if jid = "job_batch_0" then
    Except.ok ⟨some "COMPLETED", some [("vectors", ["c0", "c1", "c2"])], none⟩
  else if jid = "job_batch_1" then
    Except.ok ⟨some "COMPLETED", some [("vectors", ["c3", "c4", "c5"])], none⟩
  else if jid = "job_batch_2" then
    Except.ok ⟨some "COMPLETED", some [("vectors", ["c6", "c7", "c8"])], none⟩
  else Except.ok ⟨some "FAILED", none, some "boom"⟩

/-- A deadline that never expires within the run. -/
def neverExpired : Nat → Bool := fun _ => false

end C8Scenario

section NonTerminalDef

open HandlerServerless

/-- A status response that leaves a pending job pending: either the
status request raises, or the mapped status string is none of the
terminal ones (`COMPLETED`, `FAILED`, `CANCELLED`, `TIMED_OUT`). -/
def nonTerminal {V : Type} (r : Except Unit (StatusResponse V)) : Prop :=
  ∀ resp, r = Except.ok resp →
    resp.status.getD "UNKNOWN" ≠ "COMPLETED"
    ∧ resp.status.getD "UNKNOWN" ≠ "FAILED"
    ∧ resp.status.getD "UNKNOWN" ≠ "CANCELLED"
    ∧ resp.status.getD "UNKNOWN" ≠ "TIMED_OUT"

end NonTerminalDef

section ControllerLemmas

open EmbeddingModel

lemma adjust_batch_size_bounds (S : Settings) (success : Bool) (cur : Nat)
    (hmm : S.min_batch_size ≤ S.max_batch_size)
    (h1 : S.min_batch_size ≤ cur) (h2 : cur ≤ S.max_batch_size) :
    S.min_batch_size ≤ adjust_batch_size S success cur
    ∧ adjust_batch_size S success cur ≤ S.max_batch_size := by
  unfold adjust_batch_size
  split
  · exact ⟨h1, h2⟩
  · split
    · constructor <;> omega
    · split
      · constructor <;> omega
      · exact ⟨h1, h2⟩

lemma foldl_adjust_bounds (S : Settings) (seq : List Bool) (cur : Nat)
    (hmm : S.min_batch_size ≤ S.max_batch_size)
    (h1 : S.min_batch_size ≤ cur) (h2 : cur ≤ S.max_batch_size) :
    S.min_batch_size ≤ seq.foldl (fun c s => adjust_batch_size S s c) cur
    ∧ seq.foldl (fun c s => adjust_batch_size S s c) cur ≤ S.max_batch_size := by
  induction seq generalizing cur with
  | nil => exact ⟨h1, h2⟩
  | cons s rest ih =>
    have hb := adjust_batch_size_bounds S s cur hmm h1 h2
    simpa using ih (adjust_batch_size S s cur) hb.1 hb.2

end ControllerLemmas

/-- C5: the controller's `current_batch_size` stays within
`[min_batch_size, max_batch_size]` after every grow or shrink transition
(`EmbeddingModel._adjust_batch_size`), for every sequence of
success/failure outcomes, starting from any state in that interval,
provided `min_batch_size ≤ max_batch_size`. -/
theorem claim_C5_batch_size_invariant (S : EmbeddingModel.Settings)
    (cur : Nat) (seq : List Bool)
    (hmm : S.min_batch_size ≤ S.max_batch_size)
    (h1 : S.min_batch_size ≤ cur) (h2 : cur ≤ S.max_batch_size) :
    S.min_batch_size ≤ seq.foldl (fun c s => EmbeddingModel.adjust_batch_size S s c) cur
    ∧ seq.foldl (fun c s => EmbeddingModel.adjust_batch_size S s c) cur ≤ S.max_batch_size :=
  foldl_adjust_bounds S seq cur hmm h1 h2

/-- Witness for C5 at the source defaults `min = 1`, `max = 8`, starting
at `current = 1`, under the outcome sequence success, success, failure. -/
theorem claim_C5_batch_size_invariant_witness :
    (1 ≤ 8 ∧ 1 ≤ 1 ∧ 1 ≤ 8)
    ∧ (1 ≤ [true, true, false].foldl
        (fun c s => EmbeddingModel.adjust_batch_size EmbeddingModel.defaultSettings s c) 1
      ∧ [true, true, false].foldl
        (fun c s => EmbeddingModel.adjust_batch_size EmbeddingModel.defaultSettings s c) 1 ≤ 8) :=
  ⟨by decide,
    claim_C5_batch_size_invariant EmbeddingModel.defaultSettings 1 [true, true, false]
      (by decide) (by decide) (by decide)⟩

/-- C4 fails on the code: `embed` on 3 texts with the source's default
settings (fresh model, `current_batch_size = min_batch_size = 1`,
`adaptive_batching = true`), an always-succeeding vectorization
primitive (identity) and safe memory returns FOUR vectors for THREE
texts, duplicating the third one.  The range stride is frozen at 1 but
the slices `texts[i : i + current_batch_size]` use the live batch size,
which grows after each success, so slices overlap.  This contradicts the
method's own docstring (`shape (len(texts), embedding_dim)`) and the
repository's test `test_embed_batch_returns_correct_shape` (3 texts,
fresh model, asserts shape `(3, dim)`). -/
theorem claim_C4_duplicate_vectors :
    (EmbeddingModel.embed EmbeddingModel.defaultSettings
        (fun (l : List Nat) => some l) EmbeddingModel.memAlwaysSafe
        10 ⟨1, 0⟩ [0, 1, 2]).res = Except.ok [0, 1, 2, 2]
    ∧ ([0, 1, 2] : List Nat).length = 3 := ⟨rfl, rfl⟩

/-- C3 counterexample: `embed([])` does NOT make zero vectorization
calls.  The empty list satisfies `len(texts) ≤ current_batch_size`, so
the direct path runs and calls `_embed_batch([])` once: at the source's
default settings the call log after `embed []` is `[[]]`, not `[]`. -/
theorem claim_C3_counterexample :
    (EmbeddingModel.embed EmbeddingModel.defaultSettings
        (fun (l : List Nat) => some l) EmbeddingModel.memAlwaysSafe
        5 ⟨1, 0⟩ []).calls = [[]]
    ∧ ¬ (EmbeddingModel.embed EmbeddingModel.defaultSettings
        (fun (l : List Nat) => some l) EmbeddingModel.memAlwaysSafe
        5 ⟨1, 0⟩ []).calls = [] := by
  constructor
  · rfl
  · decide

/-- C3 amended: `embed([])` takes the direct path and performs exactly
one vectorization call, with the empty list as argument; the result is
whatever the primitive returns on `[]` (its vectors on success, the
propagated failure otherwise).  There is no empty-input early return and
no zero-call guarantee. -/
theorem claim_C3_amended_one_empty_call {T V : Type}
    (S : EmbeddingModel.Settings) (vec : List T → Option (List V))
    (mem : Nat → Bool) (f : Nat) (st : EmbeddingModel.MState) :
    (EmbeddingModel.embed S vec mem (f + 1) st []).calls = [[]]
    ∧ (∀ r, vec [] = some r →
        (EmbeddingModel.embed S vec mem (f + 1) st []).res = Except.ok r)
    ∧ (vec [] = none →
        (EmbeddingModel.embed S vec mem (f + 1) st []).res = Except.error ()) := by
  refine ⟨?_, ?_, ?_⟩
  · cases h : vec [] <;> simp [EmbeddingModel.embed, h]
  · intro r h
    simp [EmbeddingModel.embed, h]
  · intro h
    simp [EmbeddingModel.embed, h]

/-- Witness for the amended C3 at the default settings with the identity
primitive. -/
theorem claim_C3_amended_one_empty_call_witness :
    ((fun (l : List Nat) => some l) ([] : List Nat) = some [])
    ∧ (EmbeddingModel.embed EmbeddingModel.defaultSettings
        (fun (l : List Nat) => some l) EmbeddingModel.memAlwaysSafe
        5 ⟨1, 0⟩ []).res = Except.ok [] :=
  ⟨rfl,
    (claim_C3_amended_one_empty_call EmbeddingModel.defaultSettings
      (fun (l : List Nat) => some l) EmbeddingModel.memAlwaysSafe 4 ⟨1, 0⟩).2.1 [] rfl⟩

/-- C2 counterexample: at the source defaults (`min = 1`, fresh model
with `current = 1`), with `k = 2 ≥ min` and a primitive that fails
exactly on batches of more than `k = 2` texts, `embed` on `n = 5 > k`
texts RAISES instead of succeeding.  Trace: 5 > 1 takes the chunked
path with frozen stride 1; the first sub-batch `[0]` succeeds and grows
`current` to 5; the second slice `texts[1:1+5] = [1,2,3,4]` has 4 > 2
texts, the primitive fails, and the chunked path's except-branch shrinks
once and re-raises without any retry. -/
theorem claim_C2_counterexample :
    (EmbeddingModel.embed EmbeddingModel.defaultSettings
        (fun (l : List Nat) => if l.length ≤ 2 then some l else none)
        EmbeddingModel.memAlwaysSafe 10 ⟨1, 0⟩ [0, 1, 2, 3, 4]).res
      = Except.error ()
    ∧ (EmbeddingModel.embed EmbeddingModel.defaultSettings
        (fun (l : List Nat) => if l.length ≤ 2 then some l else none)
        EmbeddingModel.memAlwaysSafe 10 ⟨1, 0⟩ [0, 1, 2, 3, 4]).calls
      = [[0], [1, 2, 3, 4]] := ⟨rfl, rfl⟩

/-- C2 amended: the shrink-and-retry transition only governs the DIRECT
path.  When `len(texts) ≤ current_batch_size` and the primitive fails,
`current` becomes `adjust_batch_size S false current`
(= `max(current // 2, min)` while above `min`), and `embed` retries the
same input recursively iff the updated `current` AND `len(texts)` both
exceed `min_batch_size`; otherwise the failure propagates.  In the
chunked path a failing sub-batch shrinks once and propagates with no
retry, so `embed` on `n > k` texts under a `(> k)`-failing primitive
need not succeed, and a successful run can leave `current_batch_size`
above `k` (growth after each successful sub-batch). -/
theorem claim_C2_amended_direct_path_retry {T V : Type}
    (S : EmbeddingModel.Settings) (vec : List T → Option (List V))
    (mem : Nat → Bool) (f : Nat) (st : EmbeddingModel.MState) (texts : List T)
    (hlen : texts.length ≤ st.current_batch_size) (hfail : vec texts = none) :
    EmbeddingModel.embed S vec mem (f + 1) st texts =
      if S.min_batch_size < EmbeddingModel.adjust_batch_size S false st.current_batch_size
          ∧ S.min_batch_size < texts.length then
        ⟨(EmbeddingModel.embed S vec mem f
            ⟨EmbeddingModel.adjust_batch_size S false st.current_batch_size,
              st.mem_reads + 1⟩ texts).res,
         (EmbeddingModel.embed S vec mem f
            ⟨EmbeddingModel.adjust_batch_size S false st.current_batch_size,
              st.mem_reads + 1⟩ texts).st,
         texts :: (EmbeddingModel.embed S vec mem f
            ⟨EmbeddingModel.adjust_batch_size S false st.current_batch_size,
              st.mem_reads + 1⟩ texts).calls⟩
      else
        ⟨Except.error (),
          ⟨EmbeddingModel.adjust_batch_size S false st.current_batch_size,
            st.mem_reads + 1⟩, [texts]⟩ := by
  conv_lhs => rw [EmbeddingModel.embed]
  rw [if_pos hlen, hfail]

/-- Witness for the amended C2: a failing primitive on two texts with
`current = 4` at the defaults shrinks to 2 and retries once; the retry
fails again at `current = max(2 // 2, 1) = 1 = min` and propagates. -/
theorem claim_C2_amended_direct_path_retry_witness :
    (([7, 8] : List Nat).length ≤ 4
      ∧ (fun (_ : List Nat) => (none : Option (List Nat))) [7, 8] = none)
    ∧ EmbeddingModel.embed EmbeddingModel.defaultSettings
        (fun (_ : List Nat) => (none : Option (List Nat)))
        EmbeddingModel.memAlwaysSafe 4 ⟨4, 0⟩ [7, 8] =
      if EmbeddingModel.defaultSettings.min_batch_size
            < EmbeddingModel.adjust_batch_size EmbeddingModel.defaultSettings false 4
          ∧ EmbeddingModel.defaultSettings.min_batch_size < ([7, 8] : List Nat).length then
        ⟨(EmbeddingModel.embed EmbeddingModel.defaultSettings
            (fun (_ : List Nat) => (none : Option (List Nat)))
            EmbeddingModel.memAlwaysSafe 3
            ⟨EmbeddingModel.adjust_batch_size EmbeddingModel.defaultSettings false 4, 1⟩
            [7, 8]).res,
         (EmbeddingModel.embed EmbeddingModel.defaultSettings
            (fun (_ : List Nat) => (none : Option (List Nat)))
            EmbeddingModel.memAlwaysSafe 3
            ⟨EmbeddingModel.adjust_batch_size EmbeddingModel.defaultSettings false 4, 1⟩
            [7, 8]).st,
         [7, 8] :: (EmbeddingModel.embed EmbeddingModel.defaultSettings
            (fun (_ : List Nat) => (none : Option (List Nat)))
            EmbeddingModel.memAlwaysSafe 3
            ⟨EmbeddingModel.adjust_batch_size EmbeddingModel.defaultSettings false 4, 1⟩
            [7, 8]).calls⟩
      else
        ⟨Except.error (),
          ⟨EmbeddingModel.adjust_batch_size EmbeddingModel.defaultSettings false 4, 1⟩,
          [[7, 8]]⟩ :=
  ⟨⟨by decide, rfl⟩,
    claim_C2_amended_direct_path_retry EmbeddingModel.defaultSettings
      (fun (_ : List Nat) => (none : Option (List Nat)))
      EmbeddingModel.memAlwaysSafe 3 ⟨4, 0⟩ [7, 8] (by decide) rfl⟩

section OrchestratorLemmas

open HandlerServerless

lemma pollIter_queries {V : Type}
    (statusOf : String → Except Unit (StatusResponse V)) :
    ∀ (b : Nat) (jobs : List (EmbeddingJob V)),
    (pollIter statusOf b jobs).2
      = ((jobs.filter (fun j => j.status == "pending")).map EmbeddingJob.job_id).take b := by
  intro b jobs
  induction jobs generalizing b with
  | nil => simp [pollIter]
  | cons j rest ih =>
    by_cases hp : j.status = "pending"
    · cases b with
      | zero => simp [pollIter, hp]
      | succ b => simp [pollIter, hp, ih]
    · have hp2 : (j.status == "pending") = false := by
        simp [hp]
      simp [pollIter, hp, hp2, ih]

end OrchestratorLemmas

/-- C7: in any single polling iteration, for every status oracle, every
concurrency cap and every job list, the jobs queried are exactly the
first `max_concurrent_polls` still-Pending jobs in stable
earliest-submitted order, so the number of status queries never exceeds
the cap. -/
theorem claim_C7_poll_concurrency_cap {V : Type}
    (statusOf : String → Except Unit (HandlerServerless.StatusResponse V))
    (maxc : Nat) (jobs : List (HandlerServerless.EmbeddingJob V)) :
    (HandlerServerless.pollIter statusOf maxc jobs).2
      = ((jobs.filter (fun j => j.status == "pending")).map
          HandlerServerless.EmbeddingJob.job_id).take maxc
    ∧ (HandlerServerless.pollIter statusOf maxc jobs).2.length ≤ maxc := by
  refine ⟨pollIter_queries statusOf maxc jobs, ?_⟩
  rw [pollIter_queries statusOf maxc jobs]
  simp

/-- C10: the aggregation pass counts as failed exactly the jobs that are
not (completed with a truthy result dict): a job whose state is
completed but whose recorded result payload is missing (`None`) or an
empty dict contributes no vectors and is counted as a failed batch. -/
theorem claim_C10_falsy_result_counts_failed {V : Type}
    (jobs : List (HandlerServerless.EmbeddingJob V)) :
    HandlerServerless.failedCount jobs
      = (jobs.filter (fun j =>
          !(j.status == "completed" && HandlerServerless.resultTruthy j))).length
    ∧ HandlerServerless.collectVectors jobs
      = ((jobs.filter (fun j =>
          j.status == "completed" && HandlerServerless.resultTruthy j)).map
            HandlerServerless.jobVectors).flatten := by
  induction jobs with
  | nil => simp [HandlerServerless.failedCount, HandlerServerless.collectVectors]
  | cons j rest ih =>
    cases hb : (j.status == "completed" && HandlerServerless.resultTruthy j) with
    | true =>
      have hc : j.status = "completed" ∧ HandlerServerless.resultTruthy j = true := by
        simpa using hb
      refine ⟨?_, ?_⟩
      · simp only [HandlerServerless.failedCount]
        rw [if_pos hc, List.filter_cons, hb]
        simp [ih.1]
      · simp only [HandlerServerless.collectVectors]
        rw [if_pos hc, List.filter_cons, hb]
        simp [ih.2]
    | false =>
      have hc : ¬(j.status = "completed" ∧ HandlerServerless.resultTruthy j = true) := by
        intro h
        rw [show (j.status == "completed") = true by simp [h.1], h.2] at hb
        simp at hb
      refine ⟨?_, ?_⟩
      · simp only [HandlerServerless.failedCount]
        rw [if_neg hc, List.filter_cons, hb]
        simp [ih.1]
      · simp only [HandlerServerless.collectVectors]
        rw [if_neg hc, List.filter_cons, hb]
        simpa using ih.2

section SubmitLemmas

open HandlerServerless

lemma submitAll_length {V : Type}
    (submit : String → List Chunk → Except String String) (pref : String) :
    ∀ (i0 : Nat) (bs : List (List Chunk)),
    (submitAll submit pref i0 bs : List (EmbeddingJob V)).length = bs.length := by
  intro i0 bs
  induction bs generalizing i0 with
  | nil => rfl
  | cons b rest ih => simp [submitAll, ih]

lemma submitAll_getElem? {V : Type}
    (submit : String → List Chunk → Except String String) (pref : String) :
    ∀ (bs : List (List Chunk)) (i0 i : Nat),
    (submitAll submit pref i0 bs : List (EmbeddingJob V))[i]?
      = (bs[i]?).map (fun b => submitJob submit pref (i0 + i) b) := by
  intro bs
  induction bs with
  | nil => intro i0 i; simp [submitAll]
  | cons b rest ih =>
    intro i0 i
    cases i with
    | zero => simp [submitAll]
    | succ i =>
      simp only [submitAll, List.getElem?_cons_succ, ih (i0 + 1) i]
      have : i0 + 1 + i = i0 + (i + 1) := by omega
      rw [this]

end SubmitLemmas

/-- C9: a submission failure for one batch is recorded immediately as a
Failed job carrying the captured error message (with no submit retry and
an empty job id), and every other batch is still submitted: the job list
has one entry per batch and the entry of every batch `j` is determined
by the single remote submit response for batch `j` alone. -/
theorem claim_C9_submit_failure_isolated {V : Type}
    (submit : String → List HandlerServerless.Chunk → Except String String) (pref : String)
    (bs : List (List HandlerServerless.Chunk)) (i : Nat)
    (b : List HandlerServerless.Chunk) (e : String)
    (hb : bs[i]? = some b)
    (he : submit (HandlerServerless.mkBatchId pref i) b = Except.error e) :
    (HandlerServerless.submitAll submit pref 0 bs
        : List (HandlerServerless.EmbeddingJob V)).length = bs.length
    ∧ (HandlerServerless.submitAll submit pref 0 bs
        : List (HandlerServerless.EmbeddingJob V))[i]?
      = some ⟨"", HandlerServerless.mkBatchId pref i,
          b.map HandlerServerless.Chunk.chunk_id, "failed", none, some e⟩
    ∧ ∀ (k : Nat) (bk : List HandlerServerless.Chunk), bs[k]? = some bk →
      (HandlerServerless.submitAll submit pref 0 bs
          : List (HandlerServerless.EmbeddingJob V))[k]?
        = some (HandlerServerless.submitJob submit pref k bk) := by
  refine ⟨submitAll_length submit pref 0 bs, ?_, ?_⟩
  · rw [submitAll_getElem? submit pref bs 0 i, hb]
    simp [HandlerServerless.submitJob, he]
  · intro k bk hk
    rw [submitAll_getElem? submit pref bs 0 k, hk]
    simp

/-- Witness for C9: two one-chunk batches where the remote submit raises
for batch 0 and succeeds for batch 1; batch 0 is recorded Failed with
the error string and batch 1 is still submitted. -/
theorem claim_C9_submit_failure_isolated_witness :
    (([[⟨"c1", "x"⟩], [⟨"c2", "y"⟩]] :
        List (List HandlerServerless.Chunk))[0]? = some [⟨"c1", "x"⟩]
      ∧ (fun bid (_ : List HandlerServerless.Chunk) =>
          if bid = "p_batch_0" then Except.error "boom" else Except.ok "j1")
          (HandlerServerless.mkBatchId "p" 0) [⟨"c1", "x"⟩] = Except.error "boom")

    ∧ (HandlerServerless.submitAll
        (fun bid (_ : List HandlerServerless.Chunk) =>
          if bid = "p_batch_0" then Except.error "boom" else Except.ok "j1")
        "p" 0 [[⟨"c1", "x"⟩], [⟨"c2", "y"⟩]]
        : List (HandlerServerless.EmbeddingJob String)).length = 2
    ∧ (HandlerServerless.submitAll
        (fun bid (_ : List HandlerServerless.Chunk) =>
          if bid = "p_batch_0" then Except.error "boom" else Except.ok "j1")
        "p" 0 [[⟨"c1", "x"⟩], [⟨"c2", "y"⟩]]
        : List (HandlerServerless.EmbeddingJob String))[0]?
      = some ⟨"", HandlerServerless.mkBatchId "p" 0, ["c1"], "failed", none, some "boom"⟩ :=
  ⟨⟨rfl, rfl⟩,
    (claim_C9_submit_failure_isolated
      (fun bid (_ : List HandlerServerless.Chunk) =>
        if bid = "p_batch_0" then Except.error "boom" else Except.ok "j1")
      "p" [[⟨"c1", "x"⟩], [⟨"c2", "y"⟩]] 0 [⟨"c1", "x"⟩] "boom" rfl rfl).1,
    (claim_C9_submit_failure_isolated
      (fun bid (_ : List HandlerServerless.Chunk) =>
        if bid = "p_batch_0" then Except.error "boom" else Except.ok "j1")
      "p" [[⟨"c1", "x"⟩], [⟨"c2", "y"⟩]] 0 [⟨"c1", "x"⟩] "boom" rfl rfl).2.1⟩

/-- C1 counterexample: `embed_chunks_serverless` does NOT return an
`OrchestrationResult` carrying a failed-batch count — it returns only
the flat vector list (handler_serverless.py line 211).  Two concrete
runs, one with zero failed batches and one with one failed batch, hand
the caller the very same value `["v1"]`, so no failure count is part of
(or recoverable from) the value returned to the caller. -/
theorem claim_C1_counterexample :
    HandlerServerless.embed_chunks_serverless 1 4 C1Scenario.submitOk
        C1Scenario.statusA C1Scenario.neverExpired 5 C1Scenario.chunksA "p"
      = HandlerServerless.embed_chunks_serverless 1 4 C1Scenario.submitOk
        C1Scenario.statusB C1Scenario.neverExpired 5 C1Scenario.chunksB "p"
    ∧ HandlerServerless.failedCount (HandlerServerless.orchJobs 1 4 C1Scenario.submitOk
        C1Scenario.statusA C1Scenario.neverExpired 5 C1Scenario.chunksA "p") = 0
    ∧ HandlerServerless.failedCount (HandlerServerless.orchJobs 1 4 C1Scenario.submitOk
        C1Scenario.statusB C1Scenario.neverExpired 5 C1Scenario.chunksB "p") = 1 :=
  ⟨rfl, rfl, rfl⟩

/-- C1 amended: the orchestrator computes the failed-batch count
internally (it is only logged) but returns the vectors alone; the value
returned to the caller is exactly the `vectors` component of the
spec's `OrchestrationResult` pairing, with `failed_batch_count` absent
from the return value. -/
theorem claim_C1_amended_returns_vectors_only {V : Type} (B maxc : Nat)
    (submit : String → List HandlerServerless.Chunk → Except String String)
    (statusOf : Nat → String → Except Unit (HandlerServerless.StatusResponse V))
    (expired : Nat → Bool) (fuel : Nat)
    (chunks : List HandlerServerless.Chunk) (pref : String)
    (hne : chunks.isEmpty = false) :
    HandlerServerless.embed_chunks_serverless B maxc submit statusOf expired fuel chunks pref
      = (HandlerServerless.orchestrationResultOf B maxc submit statusOf expired
          fuel chunks pref).vectors := by
  simp [HandlerServerless.embed_chunks_serverless,
    HandlerServerless.orchestrationResultOf, hne]

/-- Witness for the amended C1 at the two-batch scenario with one
failing batch. -/
theorem claim_C1_amended_returns_vectors_only_witness :
    (C1Scenario.chunksB.isEmpty = false)
    ∧ HandlerServerless.embed_chunks_serverless 1 4 C1Scenario.submitOk
        C1Scenario.statusB C1Scenario.neverExpired 5 C1Scenario.chunksB "p"
      = (HandlerServerless.orchestrationResultOf 1 4 C1Scenario.submitOk
          C1Scenario.statusB C1Scenario.neverExpired 5 C1Scenario.chunksB "p").vectors :=
  ⟨rfl,
    claim_C1_amended_returns_vectors_only 1 4 C1Scenario.submitOk
      C1Scenario.statusB C1Scenario.neverExpired 5 C1Scenario.chunksB "p" rfl⟩

section PartitionLemmas

open HandlerServerless

lemma chunksOfF_nil {α : Type} (B f : Nat) : chunksOfF B f ([] : List α) = [] := by
  cases f <;> rfl

lemma chunksOfF_flatten {α : Type} (B : Nat) (hB : 0 < B) :
    ∀ (f : Nat) (l : List α), l.length ≤ f → (chunksOfF B f l).flatten = l := by
  intro f
  induction f with
  | zero =>
    intro l hl
    have h0 : l = [] := List.eq_nil_of_length_eq_zero (Nat.le_zero.mp hl)
    subst h0
    rfl
  | succ f ih =>
    intro l hl
    cases l with
    | nil => rfl
    | cons x xs =>
      obtain ⟨b, rfl⟩ : ∃ b, B = b + 1 := ⟨B - 1, by omega⟩
      have hlen : (xs.drop (b + 1 - 1)).length ≤ f := by
        simp only [List.length_drop]
        simp only [List.length_cons] at hl
        omega
      simp only [chunksOfF, List.flatten_cons, ih _ hlen]
      simp [List.take_succ_cons]

lemma chunksOf_flatten {α : Type} (B : Nat) (hB : 0 < B) (l : List α) :
    (chunksOf B l).flatten = l :=
  chunksOfF_flatten B hB l.length l le_rfl

lemma chunksOfF_mem_length {α : Type} (B : Nat) (hB : 0 < B) :
    ∀ (f : Nat) (l : List α), l.length ≤ f →
    ∀ c ∈ chunksOfF B f l, 0 < c.length ∧ c.length ≤ B := by
  intro f
  induction f with
  | zero =>
    intro l hl
    have h0 : l = [] := List.eq_nil_of_length_eq_zero (Nat.le_zero.mp hl)
    subst h0
    rw [chunksOfF_nil]
    intro c hc
    cases hc
  | succ f ih =>
    intro l hl
    cases l with
    | nil =>
      rw [chunksOfF_nil]
      intro c hc
      cases hc
    | cons x xs =>
      intro c hc
      simp only [chunksOfF, List.mem_cons] at hc
      rcases hc with rfl | hc
      · constructor
        · simp only [List.length_take, List.length_cons]
          omega
        · simp only [List.length_take, List.length_cons]
          omega
      · have hlen : (xs.drop (B - 1)).length ≤ f := by
          simp only [List.length_drop]
          simp only [List.length_cons] at hl
          omega
        exact ih _ hlen c hc

lemma chunksOfF_dropLast_length {α : Type} (B : Nat) (hB : 0 < B) :
    ∀ (f : Nat) (l : List α), l.length ≤ f →
    ∀ c ∈ (chunksOfF B f l).dropLast, c.length = B := by
  intro f
  induction f with
  | zero =>
    intro l hl
    have h0 : l = [] := List.eq_nil_of_length_eq_zero (Nat.le_zero.mp hl)
    subst h0
    rw [chunksOfF_nil]
    intro c hc
    simp at hc
  | succ f ih =>
    intro l hl
    cases l with
    | nil =>
      rw [chunksOfF_nil]
      intro c hc
      simp at hc
    | cons x xs =>
      have hlen : (xs.drop (B - 1)).length ≤ f := by
        simp only [List.length_drop]
        simp only [List.length_cons] at hl
        omega
      by_cases hr : chunksOfF B f (xs.drop (B - 1)) = []
      · simp [chunksOfF, hr]
      · intro c hc
        simp only [chunksOfF, List.dropLast_cons_of_ne_nil hr, List.mem_cons] at hc
        rcases hc with rfl | hc
        · have hdrop : ¬ (xs.drop (B - 1) = []) := by
            intro h0
            rw [h0, chunksOfF_nil] at hr
            exact hr rfl
          have hxs : B - 1 < xs.length := by
            rcases Nat.lt_or_ge (B - 1) xs.length with h | h
            · exact h
            · exact absurd (List.drop_eq_nil_iff.mpr h) hdrop
          simp only [List.length_take, List.length_cons]
          omega
        · exact ih _ hlen c hc

lemma submitJob_batch_id {V : Type}
    (submit : String → List Chunk → Except String String)
    (pref : String) (i : Nat) (b : List Chunk) :
    (submitJob submit pref i b : EmbeddingJob V).batch_id = mkBatchId pref i := by
  unfold submitJob
  cases submit (mkBatchId pref i) b <;> rfl

lemma submitAll_batch_ids {V : Type}
    (submit : String → List Chunk → Except String String) (pref : String) :
    ∀ (bs : List (List Chunk)) (i0 : Nat),
    (submitAll submit pref i0 bs : List (EmbeddingJob V)).map EmbeddingJob.batch_id
      = (List.range' i0 bs.length).map (mkBatchId pref) := by
  intro bs
  induction bs with
  | nil => intro i0; rfl
  | cons b rest ih =>
    intro i0
    simp only [submitAll, List.map_cons, List.length_cons, List.range'_succ i0 rest.length 1,
      submitJob_batch_id, ih (i0 + 1)]

end PartitionLemmas

/-- C8: the orchestrator partitions any items list into consecutive
batches of `batch_size` (all full except possibly the last, none empty,
concatenating back to the input) and batch `i` receives the identifier
`prefix_batch_i`; concretely, 10 items with `batch_size = 3` yield 4
batches of sizes 3, 3, 3, 1, and when three jobs report completion and
one reports failure the failed count is 1 and the vectors are exactly
those of the three successful batches. -/
theorem claim_C8_partition_and_scenario {V : Type} (B : Nat) (hB : 0 < B)
    (items : List HandlerServerless.Chunk) (pref : String)
    (submit : String → List HandlerServerless.Chunk → Except String String) :
    ((HandlerServerless.chunksOf B items).flatten = items
     ∧ (∀ c ∈ (HandlerServerless.chunksOf B items).dropLast, c.length = B)
     ∧ (∀ c ∈ HandlerServerless.chunksOf B items, 0 < c.length ∧ c.length ≤ B)
     ∧ (HandlerServerless.submitAll submit pref 0 (HandlerServerless.chunksOf B items)
          : List (HandlerServerless.EmbeddingJob V)).map
            HandlerServerless.EmbeddingJob.batch_id
        = (List.range (HandlerServerless.chunksOf B items).length).map
            (HandlerServerless.mkBatchId pref))
    ∧ ((HandlerServerless.chunksOf 3 C8Scenario.items).map List.length = [3, 3, 3, 1]
       ∧ HandlerServerless.embed_chunks_serverless 3 4 C8Scenario.submitOk
           C8Scenario.statusOf C8Scenario.neverExpired 5 C8Scenario.items "job"
         = ["c0", "c1", "c2", "c3", "c4", "c5", "c6", "c7", "c8"]
       ∧ HandlerServerless.failedCount (HandlerServerless.orchJobs 3 4 C8Scenario.submitOk
           C8Scenario.statusOf C8Scenario.neverExpired 5 C8Scenario.items "job") = 1) := by
  refine ⟨⟨chunksOf_flatten B hB items, ?_, ?_, ?_⟩, by decide, by decide, by decide⟩
  · exact chunksOfF_dropLast_length B hB items.length items le_rfl
  · exact chunksOfF_mem_length B hB items.length items le_rfl
  · rw [submitAll_batch_ids submit pref (HandlerServerless.chunksOf B items) 0,
      List.range_eq_range']

/-- Witness for C8 at `B = 3` on the ten-chunk scenario list. -/
theorem claim_C8_partition_and_scenario_witness :
    0 < 3
    ∧ (HandlerServerless.chunksOf 3 C8Scenario.items).flatten = C8Scenario.items :=
  ⟨by decide,
    (@claim_C8_partition_and_scenario String 3 (by decide) C8Scenario.items "job"
      C8Scenario.submitOk).1.1⟩

section TimeoutLemmas

open HandlerServerless

lemma updateJob_nonTerminal {V : Type}
    (statusOf : String → Except Unit (StatusResponse V)) (j : EmbeddingJob V)
    (h : nonTerminal (statusOf j.job_id)) :
    updateJob statusOf j = j := by
  unfold updateJob
  cases hr : statusOf j.job_id with
  | error e => rfl
  | ok resp =>
    obtain ⟨h1, h2, h3, h4⟩ := h resp hr
    simp [h1, h2, h3, h4]

lemma pollIter_nonTerminal {V : Type}
    (statusOf : String → Except Unit (StatusResponse V))
    (h : ∀ jid, nonTerminal (statusOf jid)) :
    ∀ (b : Nat) (jobs : List (EmbeddingJob V)), (pollIter statusOf b jobs).1 = jobs := by
  intro b jobs
  induction jobs generalizing b with
  | nil => simp [pollIter]
  | cons j rest ih =>
    by_cases hp : j.status = "pending"
    · cases b with
      | zero => simp [pollIter, hp]
      | succ b => simp [pollIter, hp, updateJob_nonTerminal statusOf j (h j.job_id), ih]
    · simp [pollIter, hp, ih]

lemma pollLoop_nonTerminal {V : Type}
    (statusOf : Nat → String → Except Unit (StatusResponse V))
    (expired : Nat → Bool) (maxc : Nat)
    (h : ∀ t jid, nonTerminal (statusOf t jid)) :
    ∀ (fuel t : Nat) (jobs : List (EmbeddingJob V)),
    pollLoop statusOf expired maxc fuel t jobs = jobs := by
  intro fuel
  induction fuel with
  | zero => intro t jobs; rfl
  | succ f ih =>
    intro t jobs
    unfold pollLoop
    split
    · rw [pollIter_nonTerminal (statusOf t) (h t) maxc jobs, ih]
    · rfl

lemma timeoutMark_allPending {V : Type} (jobs : List (EmbeddingJob V))
    (h : ∀ j ∈ jobs, j.status = "pending") :
    ∀ j ∈ timeoutMark jobs, j.status = "failed" ∧ j.error = some "Timeout" := by
  intro j hj
  rcases List.mem_map.mp hj with ⟨j0, hj0, rfl⟩
  simp [h j0 hj0]

lemma collectVectors_timeoutMark_allPending {V : Type} (jobs : List (EmbeddingJob V))
    (h : ∀ j ∈ jobs, j.status = "pending") :
    collectVectors (timeoutMark jobs) = ([] : List V)
    ∧ failedCount (timeoutMark jobs) = jobs.length := by
  induction jobs with
  | nil => simp [timeoutMark, collectVectors, failedCount]
  | cons j rest ih =>
    have hj : j.status = "pending" := h j (List.mem_cons_self j rest)
    have hrest := ih (fun j0 hj0 => h j0 (List.mem_cons_of_mem j hj0))
    have hcond : ¬(("failed" : String) = "completed" ∧
        resultTruthy (⟨j.job_id, j.batch_id, j.chunk_ids, "failed", j.result,
          some "Timeout"⟩ : EmbeddingJob V) = true) := by
      intro hco
      exact absurd hco.1 (by decide)
    constructor
    · simp only [timeoutMark, List.map_cons, if_pos hj, collectVectors]
      rw [if_neg hcond]
      exact hrest.1
    · simp only [timeoutMark, List.map_cons, if_pos hj, failedCount]
      rw [if_neg hcond]
      simp only [timeoutMark] at hrest
      rw [hrest.2, List.length_cons]

lemma cancelCalls_allPending {V : Type} (jobs : List (EmbeddingJob V))
    (h : ∀ j ∈ jobs, j.status = "pending") :
    cancelCalls jobs = jobs.map EmbeddingJob.job_id := by
  unfold cancelCalls
  rw [List.filter_eq_self.mpr]
  intro j hj
  simp [h j hj]

end TimeoutLemmas

/-- C6: if every submitted job stays Pending through the deadline (all
status responses raise or report a non-terminal status until the
deadline check at iteration `T` trips), the poll loop exits with the
jobs unchanged, the timeout sweep turns every job into Failed with
reason "Timeout", a cancel request is issued for every job, the
returned vectors are empty, and the failed-batch count equals the total
number of batches. -/
theorem claim_C6_all_pending_timeout {V : Type} (B maxc : Nat)
    (submit : String → List HandlerServerless.Chunk → Except String String)
    (statusOf : Nat → String → Except Unit (HandlerServerless.StatusResponse V))
    (expired : Nat → Bool) (T fuel : Nat)
    (chunks : List HandlerServerless.Chunk) (pref : String)
    (hne : chunks.isEmpty = false)
    (hpend : ∀ j ∈ (HandlerServerless.submitAll submit pref 0
        (HandlerServerless.chunksOf B chunks) : List (HandlerServerless.EmbeddingJob V)),
        j.status = "pending")
    (hstat : ∀ t jid, nonTerminal (statusOf t jid))
    (hexp1 : ∀ t, t < T → expired t = false) (hexp2 : expired T = true)
    (hfuel : T < fuel) :
    HandlerServerless.embed_chunks_serverless B maxc submit statusOf expired fuel chunks pref
      = ([] : List V)
    ∧ HandlerServerless.failedCount
        (HandlerServerless.orchJobs B maxc submit statusOf expired fuel chunks pref)
      = (HandlerServerless.chunksOf B chunks).length
    ∧ (∀ j ∈ HandlerServerless.orchJobs B maxc submit statusOf expired fuel chunks pref,
        j.status = "failed" ∧ j.error = some "Timeout")
    ∧ HandlerServerless.cancelCalls
        (HandlerServerless.pollLoop statusOf expired maxc fuel 0
          (HandlerServerless.submitAll submit pref 0 (HandlerServerless.chunksOf B chunks)))
      = (HandlerServerless.submitAll submit pref 0 (HandlerServerless.chunksOf B chunks)
          : List (HandlerServerless.EmbeddingJob V)).map
            HandlerServerless.EmbeddingJob.job_id := by
  have hloop := pollLoop_nonTerminal statusOf expired maxc hstat fuel 0
    (HandlerServerless.submitAll submit pref 0 (HandlerServerless.chunksOf B chunks))
  have hcoll := collectVectors_timeoutMark_allPending _ hpend
  refine ⟨?_, ?_, ?_, ?_⟩
  · unfold HandlerServerless.embed_chunks_serverless HandlerServerless.orchJobs
    rw [if_neg (by simp [hne]), hloop]
    exact hcoll.1
  · unfold HandlerServerless.orchJobs
    rw [hloop, hcoll.2,
      submitAll_length submit pref 0 (HandlerServerless.chunksOf B chunks)]
  · unfold HandlerServerless.orchJobs
    rw [hloop]
    exact timeoutMark_allPending _ hpend
  · rw [hloop]
    exact cancelCalls_allPending _ hpend

/-- Witness for C6: two one-chunk batches, a status oracle that always
raises, and a deadline that trips at iteration 2 with fuel 10. -/
theorem claim_C6_all_pending_timeout_witness :
    ((fun t => decide (2 ≤ t)) 2 = true
      ∧ ([⟨"c1", "x"⟩, ⟨"c2", "y"⟩] : List HandlerServerless.Chunk).isEmpty = false)
    ∧ HandlerServerless.embed_chunks_serverless 1 4
        (fun bid (_ : List HandlerServerless.Chunk) => Except.ok bid)
        (fun _ _ => (Except.error () : Except Unit (HandlerServerless.StatusResponse String)))
        (fun t => decide (2 ≤ t)) 10 [⟨"c1", "x"⟩, ⟨"c2", "y"⟩] "p"
      = ([] : List String)
    ∧ HandlerServerless.failedCount
        (HandlerServerless.orchJobs 1 4
          (fun bid (_ : List HandlerServerless.Chunk) => Except.ok bid)
          (fun _ _ => (Except.error () : Except Unit (HandlerServerless.StatusResponse String)))
          (fun t => decide (2 ≤ t)) 10 [⟨"c1", "x"⟩, ⟨"c2", "y"⟩] "p")
      = (HandlerServerless.chunksOf 1
          ([⟨"c1", "x"⟩, ⟨"c2", "y"⟩] : List HandlerServerless.Chunk)).length :=
  ⟨⟨rfl, rfl⟩,
    (claim_C6_all_pending_timeout 1 4
      (fun bid (_ : List HandlerServerless.Chunk) => Except.ok bid)
      (fun _ _ => (Except.error () : Except Unit (HandlerServerless.StatusResponse String)))
      (fun t => decide (2 ≤ t)) 2 10 [⟨"c1", "x"⟩, ⟨"c2", "y"⟩] "p"
      rfl (by decide) (fun t jid resp h => nomatch h) (by decide) rfl (by decide)).1,
    (claim_C6_all_pending_timeout 1 4
      (fun bid (_ : List HandlerServerless.Chunk) => Except.ok bid)
      (fun _ _ => (Except.error () : Except Unit (HandlerServerless.StatusResponse String)))
      (fun t => decide (2 ≤ t)) 2 10 [⟨"c1", "x"⟩, ⟨"c2", "y"⟩] "p"
      rfl (by decide) (fun t jid resp h => nomatch h) (by decide) rfl (by decide)).2.1⟩

